import Mathlib

/-!
Verification of the request-translation and streaming-relay logic of the
`nextjs-gemini-multimodal-agent` repository.

The server-side request handler (Next.js API route) is embedded as pure Lean
functions: `getMimeType`, `checkFileSize`, `buildGoogleGenAIPrompt` and `POST`
mirror the TypeScript functions of the same names.  JavaScript strings are
modelled as Lean `String` (a packed `List Char`), and the string operations the
route uses (`startsWith`, `includes`, `split`, the one regex `replace`) are
implemented below as explicit char-list recursions so that they are both
executable and amenable to proof.  The client-side localStorage bookkeeping
(`clearHistory` and the mount-time history loaders) is embedded as explicit
state passing over a typed model of the two storage keys.
-/

/-! ### String primitives used by the route

JavaScript `String.prototype.startsWith` / `includes`, realised on the
character list underlying a Lean `String`. -/

/-- `s.startsWith(p)` of JavaScript. -/
def strStartsWith (s p : String) : Bool :=
  p.data.isPrefixOf s.data

/-- Scans `s` for the first occurrence of the separator sequence `sep`.
Returns the segment before that occurrence together with `some` remainder
after it, or the whole list and `none` when `sep` does not occur. -/
def takeUntilSep (sep : List Char) : List Char → List Char × Option (List Char)
  | [] => ([], none)
  | c :: rest =>
    if sep.isPrefixOf (c :: rest) then ([], some ((c :: rest).drop sep.length))
    else
      let (seg, r) := takeUntilSep sep rest
      (c :: seg, r)

/-- `s.includes(pat)` of JavaScript. -/
def strContains (s pat : String) : Bool :=
  ((takeUntilSep pat.data s.data).2).isSome

/-! ### The API route of `src/unnamed/part_002` -/

/-- `base64.replace(/^data:[^;]+;base64,/, "")` — when the char list starts
with a full data-URL header `data:<mediatype>;base64,` (with a non-empty
mediatype containing no semicolon, exactly as the anchored regex requires),
returns `some` of what follows the header; otherwise `none`. -/
def dataHeaderRest (cs : List Char) : Option (List Char) :=
  if ("data:".data).isPrefixOf cs then
    let rest := cs.drop 5
    let mediatype := rest.takeWhile (fun c => c != ';')
    if mediatype.length > 0 &&
        (";base64,".data).isPrefixOf (rest.drop mediatype.length) then
      some ((rest.drop mediatype.length).drop 8)
    else none
  else none

/-- The result of the regex `replace`: the data-URL header is stripped when it
matches, and the string is returned unchanged otherwise. -/
def stripDataHeader (s : String) : String :=
  match dataHeaderRest s.data with
  | some rest => ⟨rest⟩
  | none => s

/-- `originalSizeBytes` of `checkFileSize`: the TypeScript computes
`Math.floor(base64Length * 0.75)` on the header-stripped length.  For the
integer lengths involved `base64Length * 0.75` is the exact double
`3 * base64Length / 4`, so its floor is natural-number division. -/
def originalSizeBytes (base64 : String) : Nat :=
  3 * (stripDataHeader base64).length / 4

/-- The validation and request-level errors the route can produce.  The
TypeScript signals them as message strings; we kerb them to a datatype,
recording in each constructor the data the message interpolates:
`attachmentTooLarge n` stands for
"File too large (...MB). Maximum size is 4.5MB." with `n` the computed byte
size, `unsupportedVideo` for
"Videos are not currently supported. Please upload images or PDFs.",
`malformedFiles msg` for the `JSON.parse` / shape failure caught while
processing the `files` field, and `missingApiKey` for the outer 500
"GEMINI_API_KEY is not set" path. -/
inductive ApiError where
  | attachmentTooLarge (sizeBytes : Nat)
  | unsupportedVideo
  | malformedFiles (message : String)
  | missingApiKey
deriving DecidableEq, Repr

/-- `checkFileSize(base64, fileType)`.  Returns `none` for `{valid: true}` and
`some e` for `{valid: false, error: e}`.  The TypeScript compares
`originalSizeBytes / 2^20 > 4.5` in exact double arithmetic, which holds iff
`originalSizeBytes > 4718592` (= 4.5 · 2^20). -/
def checkFileSize (base64 : String) (fileType : String) : Option ApiError :=
  if strStartsWith fileType "video/" then
    some .unsupportedVideo
  else if originalSizeBytes base64 > 4718592 then
    some (.attachmentTooLarge (originalSizeBytes base64))
  else
    none

/-- `getMimeType(fileType, base64)` — branch for branch the TypeScript
helper, including the silent `image/jpeg` default on the final line. -/
def getMimeType (fileType : String) (base64 : String) : String :=
  if strStartsWith fileType "image/" then
    if fileType = "image/png" then "image/png" else "image/jpeg"
  else if fileType = "application/pdf" then "application/pdf"
  else if strStartsWith fileType "video/" then fileType
  else if strContains base64 "data:image/png" then "image/png"
  else if strContains base64 "data:image/jpeg" || strContains base64 "data:image/jpg" then
    "image/jpeg"
  else if strContains base64 "data:application/pdf" then "application/pdf"
  else "image/jpeg"

/-- A part of a user message's array-shaped `content`: `{type:"text", text}`,
`{type:"image", image, fileType}` (as produced by the attachment-enhancement
step), or any other `type` tag, which the translator skips. -/
inductive InPart where
  | text (text : String)
  | image (image : String) (fileType : String)
  | other
deriving DecidableEq, Repr

/-- A message's `content`: either a plain string or an array of parts. -/
inductive MsgContent where
  | str (s : String)
  | parts (ps : List InPart)
deriving DecidableEq, Repr

/-- A wire-format chat message as the route receives it. -/
structure Message where
  role : String
  content : MsgContent
deriving DecidableEq, Repr

/-- An entry of the parsed `files` field: `{id, name, type, base64}`. -/
structure AttachedFile where
  id : String
  name : String
  type : String
  base64 : String
deriving DecidableEq, Repr

/-- A part of the provider payload: `{text}` or `{inlineData:{mimeType,data}}`. -/
inductive GPart where
  | text (text : String)
  | inlineData (mimeType : String) (data : String)
deriving DecidableEq, Repr

/-- An entry of the provider `contents` array. -/
structure GContent where
  role : String
  parts : List GPart
deriving DecidableEq, Repr

/-- `part.image.includes("base64,") ? part.image.split("base64,")[1] : part.image`.
JavaScript `split` cuts at every occurrence, so element `[1]` is the segment
between the first and second occurrences of `"base64,"` (or to the end when
the separator occurs once, the only case arising from real data URLs). -/
def extractBase64Data (s : String) : String :=
  match takeUntilSep ("base64,".data) s.data with
  | (_, some r1) => ⟨(takeUntilSep ("base64,".data) r1).1⟩
  | (_, none) => s

/-- The translation of one array-content part inside the `role === "user"`
branch of `buildGoogleGenAIPrompt`; parts with other `type` tags are skipped.
The TypeScript reads `part.fileType || ""`; our `image` parts always carry a
`fileType` string, with `""` standing for an absent field. -/
def translateUserPart : InPart → Option GPart
  | .text t => some (.text t)
  | .image img fileType => some (.inlineData (getMimeType fileType img) (extractBase64Data img))
  | .other => none

/-- The body of the message loop of `buildGoogleGenAIPrompt`: a `"user"`
message contributes a `"user"` entry (string content becomes one text part,
array content is translated part by part), an `"assistant"` message
contributes a `"model"` entry with its content as a single text part
(`message.content || ""`; within this pipeline assistant content is always a
string — for array content, which no caller produces, we model the resulting
text as empty), and any other role contributes nothing. -/
def translateMessage (m : Message) : Option GContent :=
  if m.role = "user" then
    some { role := "user",
           parts := match m.content with
             | .str s => [.text s]
             | .parts ps => ps.filterMap translateUserPart }
  else if m.role = "assistant" then
    some { role := "model",
           parts := [.text (match m.content with | .str s => s | .parts _ => "")] }
  else
    none

/-- `buildGoogleGenAIPrompt(messages)`: the loop pushes at most one entry per
message, in order, which is exactly `filterMap`. -/
def buildGoogleGenAIPrompt (messages : List Message) : List GContent :=
  messages.filterMap translateMessage

/-- `Array.prototype.findLastIndex`, with `none` for `-1`. -/
def findLastIndex (p : α → Bool) : List α → Option Nat
  | [] => none
  | a :: as =>
    match findLastIndex p as with
    | some i => some (i + 1)
    | none => if p a then some 0 else none

/-- One `parsedFiles.map(...)` entry: `{type:"image", image: file.base64,
fileType: file.type}`. -/
def fileToImagePart (f : AttachedFile) : InPart :=
  .image f.base64 f.type

/-- The replacement of the last user message: its `content` becomes
`[{type:"text", text: content}, ...fileParts]` when the old content is truthy
and `fileParts` alone otherwise.  A string content is truthy iff non-empty; an
array content is truthy in JavaScript (the source would then embed the array
itself as the `text` field — no caller produces that shape, and we model the
resulting text as empty). -/
def attachFilesToMessage (m : Message) (files : List AttachedFile) : Message :=
  let fileParts := files.map fileToImagePart
  { m with content :=
      match m.content with
      | .str s => if s = "" then .parts fileParts else .parts (.text s :: fileParts)
      | .parts _ => .parts (.text "" :: fileParts) }

/-- The attachment-enhancement step of `POST` (lines 139–159): locate the last
`"user"` message and, when there is one and the file list is non-empty,
replace it by its enhanced form; all other positions are untouched. -/
def enhanceMessages (messages : List Message) (files : List AttachedFile) : List Message :=
  match findLastIndex (fun m => m.role == "user") messages with
  | none => messages
  | some i =>
    if files.length > 0 then
      match messages[i]? with
      | some m => messages.set i (attachFilesToMessage m files)
      | none => messages
    else messages

/-- The request's `files` field after `await req.json()`: absent, a string
that `JSON.parse` rejects (or that does not parse into records carrying
`base64`/`type` strings), or a parsed list of file records. -/
inductive FilesField where
  | malformed (message : String)
  | parsed (files : List AttachedFile)
deriving DecidableEq, Repr

/-- The request body `{messages, files?}`. -/
structure ChatRequest where
  messages : List Message
  files : Option FilesField
deriving DecidableEq, Repr

/-- The observable outcome of `POST`: a structured JSON error response
`{error, details?}` with an HTTP status, or a `200 text/plain` streaming
response, the latter produced by invoking the upstream model with the
translated `contents` payload. -/
inductive PostResponse where
  | reject (status : Nat) (error : ApiError)
  | stream (contents : List GContent)
deriving DecidableEq, Repr

/-- Whether the outcome involved a call to the upstream model API
(`model.generateContentStream`). -/
def PostResponse.invokesUpstream : PostResponse → Bool
  | .reject _ _ => false
  | .stream _ => true

/-- First validation failure over the `parsedFiles` loop, in order. -/
def firstFileError : List AttachedFile → Option ApiError
  | [] => none
  | f :: fs =>
    match checkFileSize f.base64 f.type with
    | some e => some e
    | none => firstFileError fs

/-- The `POST` handler after a successful `req.json()`.  `hasApiKey` models
whether `process.env.GEMINI_API_KEY` is set.  File processing (parse,
per-file validation, attachment to the last user message) happens first; any
failure there is caught and returned as a `400` JSON response before the
Gemini client is constructed; the missing-key throw is caught by the outer
handler as a `500`; otherwise the translated payload is streamed. -/
def POST (req : ChatRequest) (hasApiKey : Bool) : PostResponse :=
  match req.files with
  | some (.malformed msg) => .reject 400 (.malformedFiles msg)
  | some (.parsed fs) =>
    match firstFileError fs with
    | some e => .reject 400 e
    | none =>
      if hasApiKey then
        .stream (buildGoogleGenAIPrompt (enhanceMessages req.messages fs))
      else .reject 500 .missingApiKey
  | none =>
    if hasApiKey then .stream (buildGoogleGenAIPrompt req.messages)
    else .reject 500 .missingApiKey

/-! ### The streaming relay (the `ReadableStream` body of `POST`)

The relay iterates `for await (const chunk of geminiStream.stream)`, enqueues
`encoder.encode(text)` for each non-empty `chunk.text()`, closes the
controller when the iteration completes, and calls `controller.error` when the
iteration throws.  We model one run by the list of text increments the
upstream yields before either completing or throwing, and record the enqueued
strings (each UTF-8 encoded pointwise by `TextEncoder` on the wire) together
with how the stream terminates. -/

/-- How the response `ReadableStream` ends. -/
inductive StreamTermination where
  | closed
  | errored
deriving DecidableEq, Repr

/-- What the caller of the response stream observes. -/
structure RelayOutcome where
  emitted : List String
  termination : StreamTermination
deriving DecidableEq, Repr

/-- One run of the `start(controller)` body: `chunks` are the `chunk.text()`
values the upstream iteration yields, `upstreamFails` whether the iteration
then throws instead of completing.  Only truthy (non-empty) texts are
enqueued; a throw reaches the `catch`, which errors the controller — no JSON
body is ever enqueued from inside the stream. -/
def relayStream (chunks : List String) (upstreamFails : Bool) : RelayOutcome :=
  { emitted := chunks.filter (fun t => t != ""),
    termination := if upstreamFails then .errored else .closed }

/-- Concatenation of a chunk sequence, as the caller's reassembled text. -/
def concatAll : List String → String
  | [] => ""
  | s :: rest => s ++ concatAll rest

/-! ### Client-side history storage (`chat-interface.tsx`, `sidebar.tsx`)

The two localStorage keys the components use, `documind_chats`
(`STORAGE_KEY`, a JSON array of sessions) and `documind_current_chat`
(`CURRENT_CHAT_KEY`, the active session id), modelled as a typed store; the
JSON round-trip through storage is assumed faithful. -/

/-- A client-side chat message (`interface Message` of `chat-interface.tsx`);
`role` ranges over the union type `"user" | "assistant"`. -/
structure UiMessage where
  id : String
  role : String
  content : String
deriving DecidableEq, Repr

/-- One persisted session (`interface ChatHistory`). -/
structure ChatHistory where
  id : String
  title : String
  timestamp : Nat
  messages : List UiMessage
deriving DecidableEq, Repr

/-- The browser storage visible to the components: the value under
`documind_chats` and the value under `documind_current_chat`, each `none`
when the key is absent. -/
structure LocalStorage where
  chats : Option (List ChatHistory)
  currentChat : Option String
deriving DecidableEq, Repr

/-- Insertion of a session into a list already sorted by descending
`timestamp`, keeping earlier elements first on ties. -/
def insertByTimestampDesc (a : ChatHistory) : List ChatHistory → List ChatHistory
  | [] => [a]
  | b :: rest =>
    if a.timestamp > b.timestamp then a :: b :: rest
    else b :: insertByTimestampDesc a rest

/-- `history.sort((a, b) => b.timestamp - a.timestamp)`: a stable sort by
descending timestamp (JavaScript engines implement a stable sort). -/
def sortByTimestampDesc : List ChatHistory → List ChatHistory
  | [] => []
  | a :: rest => insertByTimestampDesc a (sortByTimestampDesc rest)

/-- The component state the mount-time effect of `chat-interface.tsx`
establishes: the session list, the restored message list, and the active
session id. -/
structure MountResult where
  chatHistory : List ChatHistory
  messages : List UiMessage
  currentChatId : Option String
deriving DecidableEq, Repr

/-- The mount-time load effect of `chat-interface.tsx`: with no saved chats
nothing is restored; otherwise the session list is sorted by recency and,
when a current-chat id is stored, non-trivially resolvable in the saved list,
that session's messages and id are restored. -/
def loadOnMount (st : LocalStorage) : MountResult :=
  match st.chats with
  | none => ⟨[], [], none⟩
  | some history =>
    let sorted := sortByTimestampDesc history
    match st.currentChat with
    | none => ⟨sorted, [], none⟩
    | some cid =>
      if history.length > 0 then
        match history.find? (fun c => c.id == cid) with
        | some c => ⟨sorted, c.messages, some c.id⟩
        | none => ⟨sorted, [], none⟩
      else ⟨sorted, [], none⟩

/-- `loadHistory` of `sidebar.tsx`: the saved sessions sorted by recency and
truncated to the five most recent, or the empty list when the storage key is
absent. -/
def sidebarLoadHistory (st : LocalStorage) : List ChatHistory :=
  match st.chats with
  | none => []
  | some history => (sortByTimestampDesc history).take 5

/-- `clearHistory` of `chat-interface.tsx`: guarded by a `confirm(...)`
dialog; once confirmed it removes both storage keys (besides resetting the
in-component state). -/
def clearHistory (confirmed : Bool) (st : LocalStorage) : LocalStorage :=
  if confirmed then { chats := none, currentChat := none } else st

/-! ### Helper lemmas -/

/-- A `findLastIndex` hit is a valid index whose element satisfies the
predicate. -/
theorem findLastIndex_some {p : α → Bool} {l : List α} {i : Nat}
    (h : findLastIndex p l = some i) : ∃ a, l[i]? = some a ∧ p a = true := by
  induction l generalizing i with
  | nil => simp [findLastIndex] at h
  | cons a as ih =>
    rw [findLastIndex] at h
    cases hrec : findLastIndex p as with
    | some j =>
      rw [hrec] at h
      cases h
      obtain ⟨b, hb, hpb⟩ := ih hrec
      exact ⟨b, by simpa using hb, hpb⟩
    | none =>
      rw [hrec] at h
      by_cases hpa : p a
      · simp [hpa] at h
        exact ⟨a, by simp [← h], hpa⟩
      · simp [hpa] at h

/-- If some member of the file list fails `checkFileSize`, the validation
loop produces an error. -/
theorem firstFileError_isSome {fs : List AttachedFile} {f : AttachedFile}
    (hmem : f ∈ fs) (h : (checkFileSize f.base64 f.type).isSome = true) :
    (firstFileError fs).isSome = true := by
  induction fs with
  | nil => simp at hmem
  | cons g gs ih =>
    rw [firstFileError]
    cases hg : checkFileSize g.base64 g.type with
    | some e => simp
    | none =>
      simp only []
      rcases List.mem_cons.mp hmem with rfl | hmem'
      · rw [hg] at h; simp at h
      · exact ih hmem'

/-- With a parsed file list that fails validation, `POST` returns the first
validation error as a 400 JSON response. -/
theorem post_reject_of_firstFileError {req : ChatRequest} {hasApiKey : Bool}
    {fs : List AttachedFile} {e : ApiError}
    (hfiles : req.files = some (.parsed fs)) (herr : firstFileError fs = some e) :
    POST req hasApiKey = .reject 400 e := by
  rw [POST, hfiles]
  simp [herr]

/-- Mismatching heads refute list-level `isPrefixOf`. -/
theorem isPrefixOf_cons_of_head_ne [BEq α] (a b : α) (as bs : List α)
    (h : (a == b) = false) : List.isPrefixOf (a :: as) (b :: bs) = false := by
  simp [List.isPrefixOf, h]

/-- Prepending the empty string is the identity. -/
theorem empty_append_str (s : String) : "" ++ s = s := by
  cases s; rfl

/-- Dropping empty chunks does not change the concatenation. -/
theorem concatAll_filter_nonempty (l : List String) :
    concatAll (l.filter (fun t => t != "")) = concatAll l := by
  induction l with
  | nil => rfl
  | cons s rest ih =>
    rw [List.filter_cons]
    by_cases hs : (s != "") = true
    · simp only [hs, if_pos]
      rw [concatAll, concatAll, ih]
    · have hs' : s = "" := by
        simp only [Bool.not_eq_true] at hs
        simpa using hs
      simp only [hs, if_neg, Bool.false_eq_true, not_false_iff]
      rw [ih, concatAll, hs', empty_append_str]

/-- When the last user message exists and files are present, enhancement is
exactly the in-place replacement of that one position. -/
theorem enhanceMessages_eq_set {ms : List Message} {files : List AttachedFile}
    {i : Nat} {m : Message}
    (hidx : findLastIndex (fun x => x.role == "user") ms = some i)
    (hm : ms[i]? = some m) (hpos : 0 < files.length) :
    enhanceMessages ms files = ms.set i (attachFilesToMessage m files) := by
  rw [enhanceMessages, hidx]
  simp [hpos, hm]

/-- An explicitly declared `image/png` type resolves to `image/png` whatever
the payload is. -/
theorem getMimeType_image_png (b : String) : getMimeType "image/png" b = "image/png" := by
  rw [getMimeType]
  simp [show strStartsWith "image/png" "image/" = true from by decide]

/-- A concrete base64 payload of 6291458 characters (no data-URL header),
whose decoded size as the route computes it is `⌊3 · 6291458 / 4⌋ = 4718593`
bytes — one byte above the 4.5 MB (= 4718592 bytes) ceiling. -/
def bigBase64 : String := ⟨List.replicate 6291458 'a'⟩

/-- The payload of `bigBase64` does not carry a data-URL header, so the regex
`replace` leaves it alone. -/
theorem dataHeaderRest_bigBase64 : dataHeaderRest bigBase64.data = none := by
  have h1 : List.replicate 6291458 'a' = 'a' :: List.replicate 6291457 'a' :=
    List.replicate_succ 'a' 6291457
  have h2 : ("data:".data).isPrefixOf bigBase64.data = false := by
    show ("data:".data).isPrefixOf (List.replicate 6291458 'a') = false
    rw [h1, show ("data:".data) = 'd' :: "ata:".data from rfl]
    exact isPrefixOf_cons_of_head_ne 'd' 'a' _ _ (by decide)
  rw [dataHeaderRest, h2]
  simp

theorem stripDataHeader_bigBase64 : stripDataHeader bigBase64 = bigBase64 := by
  rw [stripDataHeader, dataHeaderRest_bigBase64]

theorem originalSizeBytes_bigBase64 : originalSizeBytes bigBase64 = 4718593 := by
  rw [originalSizeBytes, stripDataHeader_bigBase64]
  rw [show bigBase64.length = (List.replicate 6291458 'a').length from rfl,
    List.length_replicate]

/-! ### The claims -/

/-- C1 counterexample: the claim "every attachment whose decoded size exceeds
4.5 MB fails with the AttachmentTooLarge-style error" is falsified by an
oversized video attachment: for a `video/mp4` attachment whose decoded size
(4718593 bytes) exceeds the ceiling, `checkFileSize` reports the
`UnsupportedMediaKind`-style error ("Videos are not currently supported…"),
not the size error, because the video check precedes the size check; the
request is still rejected 400 without an upstream call, but with the video
error. -/
theorem c1_counterexample :
    4718592 < originalSizeBytes bigBase64 ∧
    checkFileSize bigBase64 "video/mp4" = some ApiError.unsupportedVideo ∧
    POST ⟨[⟨"user", .str "look"⟩],
        some (.parsed [⟨"1", "clip.mp4", "video/mp4", bigBase64⟩])⟩ true
      = PostResponse.reject 400 ApiError.unsupportedVideo := by
  have hchk : checkFileSize bigBase64 "video/mp4" = some ApiError.unsupportedVideo := by
    rw [checkFileSize]
    simp [show strStartsWith "video/mp4" "video/" = true from by decide]
  refine ⟨?_, hchk, ?_⟩
  · rw [originalSizeBytes_bigBase64]
    norm_num
  · rw [POST]
    simp [firstFileError, hchk]

/-- C1 (amended): for every attachment whose decoded byte size (computed
after removing the base64 overhead) exceeds 4.5 MB, the request handler
returns a structured 400 response and the upstream model API is never
invoked; the attachment's own validation error is the AttachmentTooLarge one
whenever the attachment is not a video (videos are rejected with the
UnsupportedMediaKind error regardless of size). -/
theorem c1_oversized_attachment_rejected (req : ChatRequest) (hasApiKey : Bool)
    (fs : List AttachedFile) (f : AttachedFile)
    (hfiles : req.files = some (.parsed fs)) (hmem : f ∈ fs)
    (hsize : 4718592 < originalSizeBytes f.base64) :
    (∃ e, POST req hasApiKey = PostResponse.reject 400 e) ∧
    (POST req hasApiKey).invokesUpstream = false ∧
    (strStartsWith f.type "video/" = false →
      checkFileSize f.base64 f.type =
        some (ApiError.attachmentTooLarge (originalSizeBytes f.base64))) := by
  have hchk : (checkFileSize f.base64 f.type).isSome = true := by
    rw [checkFileSize]
    by_cases hv : strStartsWith f.type "video/" = true
    · simp [hv]
    · simp [hv, hsize]
  have hsome := firstFileError_isSome hmem hchk
  obtain ⟨e, he⟩ := Option.isSome_iff_exists.mp hsome
  have hpost := @post_reject_of_firstFileError req hasApiKey fs e hfiles he
  refine ⟨⟨e, hpost⟩, by rw [hpost]; rfl, ?_⟩
  intro hnv
  rw [checkFileSize, hnv]
  simp [hsize]

/-- Witness for C1 at a concrete request with one oversized PNG attachment. -/
theorem c1_witness :
    (⟨[⟨"user", .str "analyze"⟩],
        some (.parsed [⟨"9", "big.png", "image/png", bigBase64⟩])⟩ : ChatRequest).files
      = some (.parsed [⟨"9", "big.png", "image/png", bigBase64⟩]) ∧
    4718592 < originalSizeBytes bigBase64 ∧
    (∃ e, POST ⟨[⟨"user", .str "analyze"⟩],
        some (.parsed [⟨"9", "big.png", "image/png", bigBase64⟩])⟩ true
      = PostResponse.reject 400 e) ∧
    (POST ⟨[⟨"user", .str "analyze"⟩],
        some (.parsed [⟨"9", "big.png", "image/png", bigBase64⟩])⟩ true).invokesUpstream
      = false ∧
    checkFileSize bigBase64 "image/png" =
      some (ApiError.attachmentTooLarge (originalSizeBytes bigBase64)) := by
  have hsize : 4718592 < originalSizeBytes bigBase64 := by
    rw [originalSizeBytes_bigBase64]
    norm_num
  have h := c1_oversized_attachment_rejected
    ⟨[⟨"user", .str "analyze"⟩], some (.parsed [⟨"9", "big.png", "image/png", bigBase64⟩])⟩
    true [⟨"9", "big.png", "image/png", bigBase64⟩] ⟨"9", "big.png", "image/png", bigBase64⟩
    rfl (List.mem_singleton.mpr rfl) hsize
  exact ⟨rfl, hsize, h.1, h.2.1, h.2.2 (by decide)⟩

/-- C2: every attachment whose declared MIME type starts with `video/` fails
validation with the `UnsupportedMediaKind`-style error ("Videos are not
currently supported…") no matter what its payload (hence its size) is, and a
request carrying such an attachment is answered with a structured 400
response without the upstream model API being invoked. -/
theorem c2_video_rejected (req : ChatRequest) (hasApiKey : Bool)
    (fs : List AttachedFile) (f : AttachedFile)
    (hfiles : req.files = some (.parsed fs)) (hmem : f ∈ fs)
    (hvid : strStartsWith f.type "video/" = true) :
    checkFileSize f.base64 f.type = some ApiError.unsupportedVideo ∧
    (∃ e, POST req hasApiKey = PostResponse.reject 400 e) ∧
    (POST req hasApiKey).invokesUpstream = false := by
  have hchk : checkFileSize f.base64 f.type = some ApiError.unsupportedVideo := by
    rw [checkFileSize, hvid]
    simp
  have hsome := firstFileError_isSome hmem (by rw [hchk]; rfl)
  obtain ⟨e, he⟩ := Option.isSome_iff_exists.mp hsome
  have hpost := @post_reject_of_firstFileError req hasApiKey fs e hfiles he
  exact ⟨hchk, ⟨e, hpost⟩, by rw [hpost]; rfl⟩

/-- Witness for C2 at a concrete request with one 4-byte `video/mp4`
attachment. -/
theorem c2_witness :
    (⟨[⟨"user", .str "hi"⟩], some (.parsed [⟨"1", "v.mp4", "video/mp4", "AAAA"⟩])⟩ :
        ChatRequest).files = some (.parsed [⟨"1", "v.mp4", "video/mp4", "AAAA"⟩]) ∧
    strStartsWith "video/mp4" "video/" = true ∧
    checkFileSize "AAAA" "video/mp4" = some ApiError.unsupportedVideo ∧
    (POST ⟨[⟨"user", .str "hi"⟩], some (.parsed [⟨"1", "v.mp4", "video/mp4", "AAAA"⟩])⟩
        true).invokesUpstream = false := by
  refine ⟨rfl, by decide, ?_, ?_⟩
  · exact (c2_video_rejected
      ⟨[⟨"user", .str "hi"⟩], some (.parsed [⟨"1", "v.mp4", "video/mp4", "AAAA"⟩])⟩ true
      [⟨"1", "v.mp4", "video/mp4", "AAAA"⟩] ⟨"1", "v.mp4", "video/mp4", "AAAA"⟩ rfl
      (List.mem_singleton.mpr rfl) (by decide)).1
  · exact (c2_video_rejected
      ⟨[⟨"user", .str "hi"⟩], some (.parsed [⟨"1", "v.mp4", "video/mp4", "AAAA"⟩])⟩ true
      [⟨"1", "v.mp4", "video/mp4", "AAAA"⟩] ⟨"1", "v.mp4", "video/mp4", "AAAA"⟩ rfl
      (List.mem_singleton.mpr rfl) (by decide)).2.2

/-- C3: when the last user message of the history carries non-empty string
text `c` and the request has exactly one PNG attachment, the enhanced message
translates to a payload entry with role `"user"` and exactly two parts — the
text part `c` unchanged, then an inline-data part with MIME `image/png` — and
the full translated payload is the translation of the surrounding messages
with precisely this entry at the corresponding position; the text is never
concatenated with the attachment data. -/
theorem c3_text_then_png (ms : List Message) (i : Nat) (m : Message)
    (c : String) (f : AttachedFile)
    (hidx : findLastIndex (fun x => x.role == "user") ms = some i)
    (hm : ms[i]? = some m) (hc : m.content = .str c) (hcne : c ≠ "")
    (hft : f.type = "image/png") :
    (enhanceMessages ms [f])[i]? = some (attachFilesToMessage m [f]) ∧
    translateMessage (attachFilesToMessage m [f]) =
      some ⟨"user", [GPart.text c,
        GPart.inlineData "image/png" (extractBase64Data f.base64)]⟩ ∧
    buildGoogleGenAIPrompt (enhanceMessages ms [f]) =
      buildGoogleGenAIPrompt (ms.take i) ++
        ⟨"user", [GPart.text c, GPart.inlineData "image/png" (extractBase64Data f.base64)]⟩ ::
        buildGoogleGenAIPrompt (ms.drop (i + 1)) := by
  have hi : i < ms.length := (List.getElem?_eq_some.mp hm).1
  obtain ⟨a, ha, hpa⟩ := findLastIndex_some hidx
  have hrole : m.role = "user" := by
    rw [hm] at ha
    cases ha
    exact eq_of_beq hpa
  have hset : enhanceMessages ms [f] = ms.set i (attachFilesToMessage m [f]) :=
    enhanceMessages_eq_set hidx hm (by simp)
  have hatt : attachFilesToMessage m [f] =
      { m with content := .parts [.text c, .image f.base64 "image/png"] } := by
    rw [attachFilesToMessage]
    simp [hc, hcne, fileToImagePart, hft]
  have htr : translateMessage (attachFilesToMessage m [f]) =
      some ⟨"user", [GPart.text c,
        GPart.inlineData "image/png" (extractBase64Data f.base64)]⟩ := by
    rw [hatt, translateMessage]
    simp [hrole, translateUserPart, getMimeType_image_png]
  refine ⟨?_, htr, ?_⟩
  · rw [hset]
    exact List.getElem?_set_self hi
  · rw [buildGoogleGenAIPrompt, hset, List.set_eq_take_append_cons_drop, if_pos hi,
      List.filterMap_append, List.filterMap_cons, htr]
    rfl

/-- Witness for C3: history `[user "Summarize this"]` with one PNG data-URL
attachment. -/
theorem c3_witness :
    findLastIndex (fun x : Message => x.role == "user")
      [⟨"user", .str "Summarize this"⟩] = some 0 ∧
    ("Summarize this" : String) ≠ "" ∧
    buildGoogleGenAIPrompt (enhanceMessages [⟨"user", .str "Summarize this"⟩]
        [⟨"1", "a.png", "image/png", "data:image/png;base64,AAAA"⟩]) =
      [⟨"user", [GPart.text "Summarize this",
        GPart.inlineData "image/png"
          (extractBase64Data "data:image/png;base64,AAAA")]⟩] := by
  refine ⟨by decide, by decide, ?_⟩
  have h := (c3_text_then_png [⟨"user", .str "Summarize this"⟩] 0
    ⟨"user", .str "Summarize this"⟩ "Summarize this"
    ⟨"1", "a.png", "image/png", "data:image/png;base64,AAAA"⟩
    (by decide) rfl rfl (by decide) rfl).2.2
  simpa using h

/-- C6: with at least one attachment and an existing user message, the
enhancement step leaves the history length unchanged, rewrites exactly the
most recent user message to carry every attachment (in order, as the
`fileParts` of that single message), and leaves every other position of the
history untouched — attachments are never distributed across messages. -/
theorem c6_attachments_to_last_user (ms : List Message) (files : List AttachedFile)
    (i : Nat) (m : Message)
    (hidx : findLastIndex (fun x => x.role == "user") ms = some i)
    (hm : ms[i]? = some m) (hne : files ≠ []) :
    (enhanceMessages ms files).length = ms.length ∧
    (enhanceMessages ms files)[i]? = some (attachFilesToMessage m files) ∧
    ∀ j, j ≠ i → (enhanceMessages ms files)[j]? = ms[j]? := by
  have hi : i < ms.length := (List.getElem?_eq_some.mp hm).1
  have hset : enhanceMessages ms files = ms.set i (attachFilesToMessage m files) :=
    enhanceMessages_eq_set hidx hm (List.length_pos.mpr hne)
  refine ⟨by rw [hset, List.length_set], ?_, ?_⟩
  · rw [hset]
    exact List.getElem?_set_self hi
  · intro j hj
    rw [hset]
    exact List.getElem?_set_ne (Ne.symm hj)

/-- Witness for C6: a three-message history with two attachments; the middle
assistant message and the earlier user message are untouched. -/
theorem c6_witness :
    findLastIndex (fun x : Message => x.role == "user")
      [⟨"user", .str "a"⟩, ⟨"assistant", .str "b"⟩, ⟨"user", .str "c"⟩] = some 2 ∧
    ([⟨"1", "x", "image/png", "AA"⟩, ⟨"2", "y", "application/pdf", "BB"⟩] :
      List AttachedFile) ≠ [] ∧
    (enhanceMessages [⟨"user", .str "a"⟩, ⟨"assistant", .str "b"⟩, ⟨"user", .str "c"⟩]
      [⟨"1", "x", "image/png", "AA"⟩, ⟨"2", "y", "application/pdf", "BB"⟩])[0]?
      = some ⟨"user", .str "a"⟩ ∧
    (enhanceMessages [⟨"user", .str "a"⟩, ⟨"assistant", .str "b"⟩, ⟨"user", .str "c"⟩]
      [⟨"1", "x", "image/png", "AA"⟩, ⟨"2", "y", "application/pdf", "BB"⟩])[2]?
      = some (attachFilesToMessage ⟨"user", .str "c"⟩
          [⟨"1", "x", "image/png", "AA"⟩, ⟨"2", "y", "application/pdf", "BB"⟩]) := by
  have h := c6_attachments_to_last_user
    [⟨"user", .str "a"⟩, ⟨"assistant", .str "b"⟩, ⟨"user", .str "c"⟩]
    [⟨"1", "x", "image/png", "AA"⟩, ⟨"2", "y", "application/pdf", "BB"⟩]
    2 ⟨"user", .str "c"⟩ (by decide) rfl (by decide)
  exact ⟨by decide, by decide, by rw [h.2.2 0 (by decide)]; rfl, h.2.1⟩

/-- C4: translation relabels every `assistant` message to the provider role
`"model"`, carrying its (string) content unchanged as one text part, and
every `user` message keeps the role label `"user"`. -/
theorem c4_assistant_relabelled :
    (∀ (m : Message) (s : String), m.role = "assistant" → m.content = .str s →
      translateMessage m = some ⟨"model", [GPart.text s]⟩) ∧
    (∀ m : Message, m.role = "user" →
      ∃ parts, translateMessage m = some ⟨"user", parts⟩) := by
  constructor
  · intro m s hrole hcontent
    rw [translateMessage, hrole, hcontent]
    simp
  · intro m hrole
    rw [translateMessage, hrole]
    simp

/-- Witness for C4 at the assistant message `"Hello"` and a user message. -/
theorem c4_witness :
    (Message.mk "assistant" (.str "Hello")).role = "assistant" ∧
    translateMessage ⟨"assistant", .str "Hello"⟩ = some ⟨"model", [GPart.text "Hello"]⟩ ∧
    (∃ parts, translateMessage ⟨"user", .str "Hi"⟩ = some ⟨"user", parts⟩) :=
  ⟨rfl, c4_assistant_relabelled.1 ⟨"assistant", .str "Hello"⟩ "Hello" rfl rfl,
    c4_assistant_relabelled.2 ⟨"user", .str "Hi"⟩ rfl⟩

/-- C7: for every finite sequence of upstream text increments, the relay's
emitted chunks form a subsequence of the increments in the order received
(only empty texts, which carry no bytes, are skipped), their concatenation is
exactly the concatenation of the upstream increments, and the stream is
closed normally on upstream completion. -/
theorem c7_relay_order_and_concat (chunks : List String) :
    ((relayStream chunks false).emitted).Sublist chunks ∧
    concatAll (relayStream chunks false).emitted = concatAll chunks ∧
    (relayStream chunks false).termination = .closed :=
  ⟨List.filter_sublist chunks, concatAll_filter_nonempty chunks, rfl⟩

/-- C8: when the upstream iteration throws after yielding its chunks, the
relay terminates the response stream abnormally (`controller.error`), the
delivered bytes are exactly the already-received increments — every emitted
chunk is one of the upstream texts, so no JSON error body ever follows on the
stream — and their concatenation is the concatenation of what the upstream
yielded before failing. -/
theorem c8_midstream_failure (chunks : List String) (_h : chunks ≠ []) :
    (relayStream chunks true).termination = .errored ∧
    concatAll (relayStream chunks true).emitted = concatAll chunks ∧
    ∀ s ∈ (relayStream chunks true).emitted, s ∈ chunks := by
  refine ⟨rfl, concatAll_filter_nonempty chunks, ?_⟩
  intro s hs
  exact List.mem_of_mem_filter hs

/-- Witness for C8: the upstream yields `"Hel"` then throws. -/
theorem c8_witness :
    (["Hel"] : List String) ≠ [] ∧
    (relayStream ["Hel"] true).termination = .errored ∧
    concatAll (relayStream ["Hel"] true).emitted = concatAll ["Hel"] :=
  ⟨by decide, (c8_midstream_failure ["Hel"] (by decide)).1,
    (c8_midstream_failure ["Hel"] (by decide)).2.1⟩

/-- C5 counterexample: the claimed precedence "the explicit client-declared
type is used if present" fails on the code.  For the declared type
`image/gif` the resolved MIME type is `image/jpeg`, not the declared one; and
for the declared type `text/plain` the declared value is ignored altogether —
resolution falls through to data-URL sniffing and yields `image/png` from the
payload header instead. -/
theorem c5_counterexample :
    getMimeType "image/gif" "x" = "image/jpeg" ∧ "image/gif" ≠ "image/jpeg" ∧
    getMimeType "text/plain" "data:image/png;base64,AA" = "image/png" ∧
    "text/plain" ≠ "image/png" := by
  refine ⟨by decide, by decide, by decide, by decide⟩

/-- C5 amended: the declared type is honoured only within the recognised
families — `image/png` is kept, any other `image/*` is coerced to
`image/jpeg`, `application/pdf` and `video/*` are used verbatim; any other
declared value (including the empty string for an absent field) is ignored
and resolution falls back to sniffing the payload for a recognizable data-URL
header (png, then jpeg/jpg, then pdf), defaulting to `image/jpeg`. -/
theorem c5_mime_resolution :
    (∀ b, getMimeType "image/png" b = "image/png") ∧
    (∀ t b, strStartsWith t "image/" = true → t ≠ "image/png" →
      getMimeType t b = "image/jpeg") ∧
    (∀ b, getMimeType "application/pdf" b = "application/pdf") ∧
    (∀ t b, strStartsWith t "image/" = false → t ≠ "application/pdf" →
      strStartsWith t "video/" = true → getMimeType t b = t) ∧
    (∀ t b, strStartsWith t "image/" = false → t ≠ "application/pdf" →
      strStartsWith t "video/" = false →
      getMimeType t b =
        if strContains b "data:image/png" then "image/png"
        else if strContains b "data:image/jpeg" || strContains b "data:image/jpg" then
          "image/jpeg"
        else if strContains b "data:application/pdf" then "application/pdf"
        else "image/jpeg") := by
  refine ⟨?_, ?_, ?_, ?_, ?_⟩
  · intro b
    rw [getMimeType]
    simp [show strStartsWith "image/png" "image/" = true from by decide]
  · intro t b himg hne
    rw [getMimeType, himg]
    simp [hne]
  · intro b
    rw [getMimeType]
    simp [show strStartsWith "application/pdf" "image/" = false from by decide]
  · intro t b himg hpdf hvid
    rw [getMimeType, himg, hvid]
    simp [hpdf]
  · intro t b himg hpdf hvid
    rw [getMimeType, himg, hvid]
    simp [hpdf]

/-- Witness for C5 at the declared types `image/webp` (coerced to JPEG) and
`video/mp4` (kept verbatim). -/
theorem c5_witness :
    strStartsWith "image/webp" "image/" = true ∧ "image/webp" ≠ "image/png" ∧
    getMimeType "image/webp" "x" = "image/jpeg" ∧
    strStartsWith "video/mp4" "video/" = true ∧
    getMimeType "video/mp4" "x" = "video/mp4" :=
  ⟨by decide, by decide,
    c5_mime_resolution.2.1 "image/webp" "x" (by decide) (by decide),
    by decide,
    c5_mime_resolution.2.2.2.1 "video/mp4" "x" (by decide) (by decide) (by decide)⟩

/-- C9: when the `files` field does not parse as the expected attachment-list
structure, `POST` answers with the structured 400 JSON error and the upstream
model API is never invoked. -/
theorem c9_malformed_files_rejected (req : ChatRequest) (hasApiKey : Bool)
    (msg : String) (h : req.files = some (.malformed msg)) :
    POST req hasApiKey = PostResponse.reject 400 (ApiError.malformedFiles msg) ∧
    (POST req hasApiKey).invokesUpstream = false := by
  have hpost : POST req hasApiKey = PostResponse.reject 400 (.malformedFiles msg) := by
    rw [POST, h]
  exact ⟨hpost, by rw [hpost]; rfl⟩

/-- Witness for C9 at a concrete request whose `files` string is not valid
JSON. -/
theorem c9_witness :
    (⟨[⟨"user", .str "hi"⟩], some (.malformed "Unexpected token")⟩ : ChatRequest).files
      = some (.malformed "Unexpected token") ∧
    POST ⟨[⟨"user", .str "hi"⟩], some (.malformed "Unexpected token")⟩ true
      = PostResponse.reject 400 (ApiError.malformedFiles "Unexpected token") ∧
    (POST ⟨[⟨"user", .str "hi"⟩], some (.malformed "Unexpected token")⟩ true).invokesUpstream
      = false :=
  ⟨rfl,
    (c9_malformed_files_rejected _ true "Unexpected token" rfl).1,
    (c9_malformed_files_rejected _ true "Unexpected token" rfl).2⟩

/-- C10: once the user confirms, `clearHistory` removes both storage keys, so
a subsequent reload restores zero sessions, no messages and no current
session id in the chat component, and an empty list in the sidebar. -/
theorem c10_clear_history (st : LocalStorage) (confirmed : Bool)
    (h : confirmed = true) :
    (clearHistory confirmed st).chats = none ∧
    (clearHistory confirmed st).currentChat = none ∧
    loadOnMount (clearHistory confirmed st) = ⟨[], [], none⟩ ∧
    sidebarLoadHistory (clearHistory confirmed st) = [] := by
  subst h
  exact ⟨rfl, rfl, rfl, rfl⟩

/-- Witness for C10 starting from a storage with one session and an active
pointer. -/
theorem c10_witness :
    true = true ∧
    loadOnMount (clearHistory true ⟨some [⟨"1", "t", 5, []⟩], some "1"⟩) = ⟨[], [], none⟩ ∧
    sidebarLoadHistory (clearHistory true ⟨some [⟨"1", "t", 5, []⟩], some "1"⟩) = [] :=
  ⟨rfl, (c10_clear_history ⟨some [⟨"1", "t", 5, []⟩], some "1"⟩ true rfl).2.2.1,
    (c10_clear_history ⟨some [⟨"1", "t", 5, []⟩], some "1"⟩ true rfl).2.2.2⟩
